import Mathlib

/-!
Shallow embedding of the flow-sampling core of gotm (src/main.go).

The per-worker capture loop `doSniff` is embedded as a pure step function on an
explicit worker state: `processFrame` models the per-frame work of one loop
iteration (main.go lines 238-284) and `sweepStep` models the expiry sweep that
runs inside the periodic housekeeping block (main.go lines 296-306).  The Go
`map[FiveTuple]*trackedFlow` is embedded as an association list with at most
one binding per key reachable from the empty table; pointer mutation of a
`*trackedFlow` becomes replacement of the binding.  Go `uint` counters are
modelled as unbounded naturals (the spec notes counters never saturate within
realistic capture durations), and `time.Time` values as natural-number
timestamps with Go's `Sub` becoming truncated subtraction (timestamps are
monotone in a run, so both agree on every comparison the code performs).
Per-worker Prometheus counters that the code flushes and zeroes every 5000
frames are tracked cumulatively (local counter plus already-flushed total),
which is the quantity the flushed metric accumulates.  Frames destined for the
writer goroutine (`writerchan <- PcapFrame{...}`) are collected in an `output`
list, emitted log lines in a `logs` list, and `mFlowSize.Observe` calls in a
`histogram` list, preserving order.
-/

namespace Gotm

/-- Constant from main.go line 29. -/
def MAX_ETHERNET_MTU : Nat := 9216

/-- Constant from main.go line 30: the nominal per-packet header discount. -/
def MINIMUM_IP_PACKET_SIZE : Nat := 58

/-- Constant from main.go line 31: `1024 * 1024 * 1024 * 16`, the 16 GiB
large-flow diagnostic threshold. -/
def LARGE_FLOW_SIZE : Nat := 1024 * 1024 * 1024 * 16

/-- A `gopacket.Flow` endpoint pair, opaque data supporting equality; the Go
zero value is `⟨0, 0⟩`. -/
structure GpFlow where
  src : Nat
  dst : Nat
deriving DecidableEq

/-- The flow key of main.go lines 178-182: L4 protocol, network endpoint pair,
transport endpoint pair. -/
structure FiveTuple where
  proto : Nat
  networkFlow : GpFlow
  transportFlow : GpFlow
deriving DecidableEq

/-- The Go zero value of `FiveTuple` (`var flow FiveTuple`, main.go line 242). -/
def FiveTuple.zero : FiveTuple := ⟨0, ⟨0, 0⟩, ⟨0, 0⟩⟩

/-- Per-flow sampling state, main.go lines 162-167. -/
structure trackedFlow where
  packets : Nat
  bytecount : Nat
  last : Nat
  logged : Bool
deriving DecidableEq

/-- Transport layer of a frame as far as the decoder is concerned: TCP or UDP
carrying a transport endpoint pair. -/
structure TransLayer where
  isUdp : Bool
  tf : GpFlow
deriving DecidableEq

/-- Network layer of a frame: IPv4 (carrying `Protocol`) or IPv6 (carrying
`NextHeader`), a network endpoint pair, and an optional recognized transport
layer.  In the `gopacket` decoding-layer chain a TCP/UDP layer is only ever
decoded as the successor of a recognized IP layer, which this structure
captures by nesting. -/
structure IpLayer where
  isV6 : Bool
  proto : Nat
  nf : GpFlow
  transport : Option TransLayer
deriving DecidableEq

/-- An Ethernet frame as seen by the registered decoding layers of main.go
lines 221-228: Ethernet, optional 802.1Q tag, optional recognized IP layer
(with optional recognized transport layer below it).  `ip = none` models an
EtherType the parser does not recognize (`IgnoreUnsupported = true`: decoding
stops silently). -/
structure EthFrame where
  vlan : Bool
  ip : Option IpLayer
deriving DecidableEq

/-- A decoded layer descriptor, the elements of the `decoded` list that
`parser.DecodeLayers` fills in (main.go line 241). -/
inductive Layer where
  | ethernet
  | dot1q
  | ipv4 (protocol : Nat) (nf : GpFlow)
  | ipv6 (nextHeader : Nat) (nf : GpFlow)
  | tcp (tf : GpFlow)
  | udp (tf : GpFlow)
deriving DecidableEq

/-- The list of layer descriptors produced by `parser.DecodeLayers` on a frame:
Ethernet first, then the VLAN tag if present, then the IP layer if recognized,
then the transport layer if recognized (main.go lines 227-241). -/
def decodeLayers (f : EthFrame) : List Layer :=
  Layer.ethernet ::
    ((if f.vlan then [Layer.dot1q] else []) ++
      match f.ip with
      | none => []
      | some ip =>
        (if ip.isV6 then Layer.ipv6 ip.proto ip.nf else Layer.ipv4 ip.proto ip.nf) ::
          (match ip.transport with
           | none => []
           | some t => [if t.isUdp then Layer.udp t.tf else Layer.tcp t.tf]))

/-- One iteration of the `for _, layerType := range decoded` switch of main.go
lines 243-257. -/
def decodeLayerStep (flow : FiveTuple) (l : Layer) : FiveTuple :=
  match l with
  | Layer.ipv6 nh nf => { flow with proto := nh, networkFlow := nf }
  | Layer.ipv4 p nf => { flow with proto := p, networkFlow := nf }
  | Layer.udp tf => { flow with transportFlow := tf }
  | Layer.tcp tf => { flow with transportFlow := tf }
  | _ => flow

/-- The five-tuple extraction loop of main.go lines 242-257: start from the
zero value and fold the switch over the decoded layers. -/
def decodeFiveTuple (decoded : List Layer) : FiveTuple :=
  decoded.foldl decodeLayerStep FiveTuple.zero

/-- Key of a frame: decode its layers and fold the switch. -/
def ethKey (e : EthFrame) : FiveTuple :=
  decodeFiveTuple (decodeLayers e)

/-- A captured frame handed to one loop iteration: its decodable structure and
its captured length `len(packetData)`. -/
structure Frame where
  eth : EthFrame
  len : Nat
deriving DecidableEq

/-- Key of a frame. -/
def frameKey (fr : Frame) : FiveTuple := ethKey fr.eth

/-- The worker's `seen` map (main.go line 216), as an association list. -/
abbrev FlowTable := List (FiveTuple × trackedFlow)

/-- Map lookup `seen[flow]` (main.go line 259). -/
def lookupFlow : FlowTable → FiveTuple → Option trackedFlow
  | [], _ => none
  | kv :: rest, k => if k = kv.1 then some kv.2 else lookupFlow rest k

/-- Map write `seen[flow] = flw` plus the subsequent in-place mutations through
the pointer: replace the binding for `k` (or append a fresh one). -/
def updateFlow : FlowTable → FiveTuple → trackedFlow → FlowTable
  | [], k, f => [(k, f)]
  | kv :: rest, k, f => if k = kv.1 then (k, f) :: rest else kv :: updateFlow rest k f

/-- Sampler configuration: the `bytecutoff`, `packetcutoff` and `flowtimeout`
flags of main.go lines 141-143. -/
structure Config where
  flowByteCutoff : Nat
  flowPacketCutoff : Nat
  flowTimeout : Nat
deriving DecidableEq

/-- Worker-local state of one `doSniff` loop, with the streams it emits.
`output` collects the frames sent on `writerchan`, `logs` the keys of emitted
large-flow log lines, `histogram` the values observed into `mFlowSize`.  The
numeric counters are the cumulative values of the worker's local counters
(counting what has already been flushed into the Prometheus metrics). -/
structure SniffState where
  seen : FlowTable
  output : List Frame
  logs : List FiveTuple
  histogram : List Nat
  totalPackets : Nat
  totalBytes : Nat
  outputPackets : Nat
  outputBytes : Nat
  totalFlows : Nat
  removedFlows : Nat
deriving DecidableEq

/-- Worker state at the top of `doSniff`'s loop (main.go lines 216-217). -/
def initState : SniffState :=
  { seen := [], output := [], logs := [], histogram := [],
    totalPackets := 0, totalBytes := 0, outputPackets := 0, outputBytes := 0,
    totalFlows := 0, removedFlows := 0 }

/-- The payload-ish byte credit of one frame: main.go lines 268-271 add
`pl - MINIMUM_IP_PACKET_SIZE` exactly when `pl > MINIMUM_IP_PACKET_SIZE`. -/
def payloadish (len : Nat) : Nat :=
  if MINIMUM_IP_PACKET_SIZE < len then len - MINIMUM_IP_PACKET_SIZE else 0

/-- The per-frame mutation of the tracked flow (main.go lines 266-271):
`flw.last = time.Now()`, `flw.packets += 1`, conditional `flw.bytecount` add. -/
def updatedFlow (now : Nat) (pl : Nat) (flw0 : trackedFlow) : trackedFlow :=
  { packets := flw0.packets + 1
    bytecount := if MINIMUM_IP_PACKET_SIZE < pl then flw0.bytecount + (pl - MINIMUM_IP_PACKET_SIZE)
                 else flw0.bytecount
    last := now
    logged := flw0.logged }

/-- The acceptance test of main.go line 272, on the post-update counters:
`flw.bytecount < flowByteCutoff && flw.packets < flowPacketCutoff`. -/
def acceptB (cfg : Config) (f : trackedFlow) : Bool :=
  decide (f.bytecount < cfg.flowByteCutoff) && decide (f.packets < cfg.flowPacketCutoff)

/-- The large-flow diagnostic test of main.go line 281: taken only when the
frame was not accepted, the one-shot flag is unset, and the byte count exceeds
`LARGE_FLOW_SIZE`. -/
def logB (acc : Bool) (f : trackedFlow) : Bool :=
  !acc && (f.logged == false) && decide (LARGE_FLOW_SIZE < f.bytecount)

/-- One per-frame iteration of the `doSniff` loop (main.go lines 238-284):
count the frame, look up or create the tracked flow, apply the counter
updates, then either enqueue the frame to the writer or (one-shot) emit the
large-flow diagnostic. -/
def processFrame (cfg : Config) (st : SniffState) (now : Nat) (fr : Frame) : SniffState :=
  let key := frameKey fr
  let flw0 := (lookupFlow st.seen key).getD ⟨0, 0, 0, false⟩
  let flw1 := updatedFlow now fr.len flw0
  let acc := acceptB cfg flw1
  let lg := logB acc flw1
  let flw2 := if lg then { flw1 with logged := true } else flw1
  { seen := updateFlow st.seen key flw2
    output := if acc then st.output ++ [fr] else st.output
    logs := if lg then st.logs ++ [key] else st.logs
    histogram := st.histogram
    totalPackets := st.totalPackets + 1
    totalBytes := st.totalBytes + fr.len
    outputPackets := if acc then st.outputPackets + 1 else st.outputPackets
    outputBytes := if acc then st.outputBytes + fr.len else st.outputBytes
    totalFlows := if (lookupFlow st.seen key).isNone then st.totalFlows + 1 else st.totalFlows
    removedFlows := st.removedFlows }

/-- The expiry test of main.go line 298: `lastcleanup.Sub(flw.last) > flowTimeout`. -/
def expired (cfg : Config) (now : Nat) (kv : FiveTuple × trackedFlow) : Bool :=
  decide (cfg.flowTimeout < now - kv.2.last)

/-- The expiry sweep of main.go lines 296-306: collect every entry whose
last-seen age exceeds the timeout, observe its byte count into the size
histogram, and delete it from the table. -/
def sweepStep (cfg : Config) (st : SniffState) (now : Nat) : SniffState :=
  let removed := st.seen.filter (expired cfg now)
  { st with
    seen := st.seen.filter (fun kv => !expired cfg now kv)
    histogram := st.histogram ++ removed.map (fun kv => kv.2.bytecount)
    removedFlows := st.removedFlows + removed.length }

/-- An observable step of the worker loop: a frame arriving at a timestamp, or
an expiry sweep firing at a timestamp. -/
inductive Event where
  | pkt (now : Nat) (fr : Frame)
  | sweep (now : Nat)
deriving DecidableEq

/-- Run the worker over a list of events. -/
def runEvents (cfg : Config) (st : SniffState) : List Event → SniffState
  | [] => st
  | Event.pkt now fr :: rest => runEvents cfg (processFrame cfg st now fr) rest
  | Event.sweep now :: rest => runEvents cfg (sweepStep cfg st now) rest

/-- `true` when the event list contains only frame arrivals (no sweeps). -/
def allPkt : List Event → Bool
  | [] => true
  | Event.pkt _ _ :: rest => allPkt rest
  | Event.sweep _ :: _ => false

/-- Byte count recorded in the table for a key (0 when absent). -/
def bytesOf (tbl : FlowTable) (k : FiveTuple) : Nat :=
  match lookupFlow tbl k with
  | some f => f.bytecount
  | none => 0

/-- Packet count recorded in the table for a key (0 when absent). -/
def packetsOf (tbl : FlowTable) (k : FiveTuple) : Nat :=
  match lookupFlow tbl k with
  | some f => f.packets
  | none => 0

/-- The one-shot diagnostic flag recorded for a key (false when absent). -/
def loggedOf (tbl : FlowTable) (k : FiveTuple) : Bool :=
  match lookupFlow tbl k with
  | some f => f.logged
  | none => false

/-- Number of large-flow diagnostics emitted so far for a given key. -/
def logsCount (st : SniffState) (k : FiveTuple) : Nat :=
  (st.logs.filter (fun j => decide (j = k))).length

/-- The frames of a given key within an output list. -/
def outK (k : FiveTuple) (out : List Frame) : List Frame :=
  out.filter (fun f => decide (frameKey f = k))

/-- Sum of payload-ish byte credits of the frames of a given key in a trace. -/
def sumPayload (k : FiveTuple) : List Event → Nat
  | [] => 0
  | Event.pkt _ fr :: rest =>
      (if frameKey fr = k then payloadish fr.len else 0) + sumPayload k rest
  | Event.sweep _ :: rest => sumPayload k rest

/-- `true` when a key's entry already satisfies the cutoff disjunction of spec
invariant 3: `packets ≥ packet_cutoff` or `bytes ≥ byte_cutoff`. -/
def cutoffReached (cfg : Config) (tbl : FlowTable) (k : FiveTuple) : Bool :=
  match lookupFlow tbl k with
  | some f => decide (cfg.flowByteCutoff ≤ f.bytecount) || decide (cfg.flowPacketCutoff ≤ f.packets)
  | none => false

/-- The keys of a flow table are pairwise distinct (true of every table
reachable from the empty one, mirroring the Go map). -/
def flowKeysNodup (tbl : FlowTable) : Prop :=
  (tbl.map Prod.fst).Nodup

/-!
File manager: the `renamePcap` finalizer (main.go lines 394-415).  The two
fallible operating-system calls `os.MkdirAll` and `os.Rename` are embedded as
oracle functions returning an optional error; a Go `error` is an abstract
value on which the code can only test `os.IsNotExist`.  The function result is
instrumented with the pair of names actually passed to the rename and a flag
recording whether the rename succeeded (the condition under which the code
logs `moved ... to ...`). -/

/-- An abstract Go `error`: the only observation made by `renamePcap` is
`os.IsNotExist`; `code` keeps distinct errors distinguishable. -/
structure GoError where
  isNotExist : Bool
  code : Nat
deriving DecidableEq

/-- A wall-clock instant as consumed by `time.Now().Format`. -/
structure GoTime where
  year : Nat
  month : Nat
  day : Nat
  hour : Nat
  minute : Nat
  second : Nat
deriving DecidableEq

/-- Two-digit zero-padded decimal, as the Go layout verbs `01`, `02`, `15`,
`04`, `05` render month, day, hour, minute, second. -/
def pad2 (n : Nat) : String :=
  if n < 10 then "0" ++ toString n else toString n

/-- Four-digit zero-padded decimal, as the Go layout verb `2006` renders the
year. -/
def pad4 (n : Nat) : String :=
  if n < 10 then "000" ++ toString n
  else if n < 100 then "00" ++ toString n
  else if n < 1000 then "0" ++ toString n
  else toString n

/-- `time.Now().Format("2006/01/02/2006-01-02T15-04-05.pcap")` (main.go
line 395). -/
def timeFormatPcap (t : GoTime) : String :=
  pad4 t.year ++ "/" ++ pad2 t.month ++ "/" ++ pad2 t.day ++ "/" ++
    pad4 t.year ++ "-" ++ pad2 t.month ++ "-" ++ pad2 t.day ++ "T" ++
    pad2 t.hour ++ "-" ++ pad2 t.minute ++ "-" ++ pad2 t.second ++ ".pcap"

/-- `filepath.Join` for a nonempty clean root and a relative date path: the
root, a separator, the path. -/
def filepathJoin (root rel : String) : String :=
  root ++ "/" ++ rel

/-- Characters of the parent of a path: everything before the last slash. -/
def dirChars : List Char → List Char
  | l =>
    let tail := l.reverse.dropWhile (fun c => !(c == '/'))
    (tail.drop 1).reverse

/-- `filepath.Dir` for clean slash-separated paths: the path with its final
component removed (`"."` when the path has no separator). -/
def filepathDir (s : String) : String :=
  if s.data.contains '/' then String.mk (dirChars s.data) else "."

/-- The `renamePcap` finalizer of main.go lines 394-415.  `mkdirAll` and
`rename` are the outcomes of the two operating-system calls.  On a `.ok`
result the returned triple records the source and destination names that the
rename was invoked with and whether the file actually moved (false exactly in
the tolerated missing-source case). -/
def renamePcap (compressed : Bool) (t : GoTime) (tempName outputPath : String)
    (mkdirAll : String → Option GoError) (rename : String → String → Option GoError) :
    Except GoError (String × String × Bool) :=
  let datePart := timeFormatPcap t
  let datePart2 := if compressed then datePart ++ ".gz" else datePart
  let tempName2 := if compressed then tempName ++ ".gz" else tempName
  let newName := filepathJoin outputPath datePart2
  match mkdirAll (filepathDir newName) with
  | some e => Except.error e
  | none =>
    match rename tempName2 newName with
    | some e =>
        if e.isNotExist then Except.ok (tempName2, newName, false) else Except.error e
    | none => Except.ok (tempName2, newName, true)

/-!
Concrete fixtures used by counterexamples and witnesses: a plain TCP/IPv4
frame shape at several capture lengths, and sampler configurations matching
the spec scenarios. -/

/-- A TCP-over-IPv4 frame structure with arbitrary distinct endpoints. -/
def ethTcp : EthFrame :=
  { vlan := false
    ip := some { isV6 := false, proto := 6, nf := ⟨1, 2⟩,
                 transport := some { isUdp := false, tf := ⟨3, 4⟩ } } }

/-- An Ethernet frame whose EtherType the parser does not recognize. -/
def ethNoIp : EthFrame := { vlan := false, ip := none }

/-- A 100-byte frame of the TCP flow (spec scenario S1). -/
def frTcp100 : Frame := ⟨ethTcp, 100⟩

/-- A 2000-byte frame of the TCP flow (spec scenario S2). -/
def frTcp2000 : Frame := ⟨ethTcp, 2000⟩

/-- A 10000-byte frame of the TCP flow (single packet above the default byte
cutoff). -/
def frTcp10000 : Frame := ⟨ethTcp, 10000⟩

/-- A 2^35-byte frame of the TCP flow, whose payload-ish credit alone exceeds
`LARGE_FLOW_SIZE`. -/
def frTcpBig : Frame := ⟨ethTcp, 34359738368⟩

/-- Scenario S1 configuration: `bytecutoff=10_000_000`, `packetcutoff=100`. -/
def cfgS1 : Config := ⟨10000000, 100, 5⟩

/-- Scenario S2 / default configuration: `bytecutoff=8192`, `packetcutoff=100`. -/
def cfgS2 : Config := ⟨8192, 100, 5⟩

/-- A configuration whose byte cutoff (2^40) exceeds the 16 GiB diagnostic
threshold. -/
def cfgHugeCutoff : Config := ⟨1099511627776, 10, 5⟩

/-- A configuration with `packetcutoff=1`. -/
def cfgPc1 : Config := ⟨8192, 1, 5⟩

/-- The suffix appended to file names exactly when compression is enabled. -/
def gzSuffix (compressed : Bool) : String :=
  if compressed then ".gz" else ""

/-- A fixed wall-clock instant for concrete file-manager runs. -/
def tW : GoTime := ⟨2024, 3, 7, 1, 2, 3⟩

/-- The current-file name a writer would pass to the finalizer. -/
def tmpName : String := "eth0_current.pcap.tmp"

/-- A concrete output root. -/
def outRoot : String := "out"

/-- The tracked flow after the counter updates of one frame (the value of
`flw` at main.go line 272), named for use in lemma statements. -/
def flw1Of (st : SniffState) (now : Nat) (fr : Frame) : trackedFlow :=
  updatedFlow now fr.len ((lookupFlow st.seen (frameKey fr)).getD ⟨0, 0, 0, false⟩)

/-- The tracked flow as left in the table by one frame (after the possible
one-shot `flw.logged = true` of main.go line 283). -/
def flw2Of (cfg : Config) (st : SniffState) (now : Nat) (fr : Frame) : trackedFlow :=
  if logB (acceptB cfg (flw1Of st now fr)) (flw1Of st now fr)
  then { flw1Of st now fr with logged := true } else flw1Of st now fr

/-- Closed form of the worker state after `n` frames of one fixed flow, all of
the same length and timestamp, starting from the initial state, in the regime
where the cumulative byte count never reaches the byte cutoff nor the
large-flow threshold: the flow has `n` packets and `n` payload-ish credits,
and the first `min n (packetcutoff - 1)` frames were accepted. -/
def singleFlowState (cfg : Config) (fr : Frame) (t : Nat) (n : Nat) : SniffState :=
  { seen := [(frameKey fr, ⟨n, n * payloadish fr.len, t, false⟩)]
    output := List.replicate (min n (cfg.flowPacketCutoff - 1)) fr
    logs := []
    histogram := []
    totalPackets := n
    totalBytes := n * fr.len
    outputPackets := min n (cfg.flowPacketCutoff - 1)
    outputBytes := (min n (cfg.flowPacketCutoff - 1)) * fr.len
    totalFlows := 1
    removedFlows := 0 }

/-!
Infrastructure lemmas about the association-list flow table and the step
functions. -/

theorem lookupFlow_updateFlow_self (tbl : FlowTable) (k : FiveTuple) (f : trackedFlow) :
    lookupFlow (updateFlow tbl k f) k = some f := by
  induction tbl with
  | nil => simp [updateFlow, lookupFlow]
  | cons kv rest ih =>
      by_cases h : k = kv.1
      · simp [updateFlow, lookupFlow, h]
      · simp [updateFlow, lookupFlow, h, ih]

theorem lookupFlow_updateFlow_ne (tbl : FlowTable) (k j : FiveTuple) (f : trackedFlow)
    (h : k ≠ j) : lookupFlow (updateFlow tbl j f) k = lookupFlow tbl k := by
  induction tbl with
  | nil => simp [updateFlow, lookupFlow, h]
  | cons kv rest ih =>
      by_cases hj : j = kv.1
      · subst hj
        simp [updateFlow, lookupFlow, h]
      · by_cases hk : k = kv.1 <;> simp [updateFlow, lookupFlow, hj, hk, ih]

theorem mem_updateFlow {tbl : FlowTable} {k : FiveTuple} {f : trackedFlow}
    {x : FiveTuple × trackedFlow} (hx : x ∈ updateFlow tbl k f) :
    x = (k, f) ∨ x ∈ tbl := by
  induction tbl with
  | nil => simpa [updateFlow] using hx
  | cons kv rest ih =>
      by_cases h : k = kv.1
      · simp [updateFlow, h] at hx
        rcases hx with hx | hx
        · exact Or.inl (by simp [hx, h])
        · exact Or.inr (List.mem_cons_of_mem _ hx)
      · simp [updateFlow, h] at hx
        rcases hx with hx | hx
        · exact Or.inr (by simp [hx])
        · rcases ih hx with hx' | hx'
          · exact Or.inl hx'
          · exact Or.inr (List.mem_cons_of_mem _ hx')

theorem lookupFlow_eq_none_of_not_mem (tbl : FlowTable) (k : FiveTuple)
    (h : k ∉ tbl.map Prod.fst) : lookupFlow tbl k = none := by
  induction tbl with
  | nil => rfl
  | cons kv rest ih =>
      simp only [List.map_cons, List.mem_cons, not_or] at h
      simp [lookupFlow, h.1, ih h.2]

theorem lookupFlow_filter_none (p : FiveTuple × trackedFlow → Bool) (tbl : FlowTable)
    (k : FiveTuple) (h : lookupFlow tbl k = none) :
    lookupFlow (tbl.filter p) k = none := by
  induction tbl with
  | nil => rfl
  | cons kv rest ih =>
      by_cases hk : k = kv.1
      · simp [lookupFlow, hk] at h
      · simp only [lookupFlow, if_neg hk] at h
        by_cases hp : p kv
        · simp [List.filter_cons_of_pos hp, lookupFlow, hk, ih h]
        · simp [List.filter_cons_of_neg hp, ih h]

theorem lookupFlow_filter (p : FiveTuple × trackedFlow → Bool) (tbl : FlowTable)
    (k : FiveTuple) (hnd : flowKeysNodup tbl) :
    lookupFlow (tbl.filter p) k =
      match lookupFlow tbl k with
      | some f => if p (k, f) then some f else none
      | none => none := by
  induction tbl with
  | nil => rfl
  | cons kv rest ih =>
      obtain ⟨k1, f1⟩ := kv
      have hnd2 : (k1 :: rest.map Prod.fst).Nodup := hnd
      have hpair := List.nodup_cons.mp hnd2
      have hni : k1 ∉ rest.map Prod.fst := hpair.1
      have hnd' : flowKeysNodup rest := hpair.2
      by_cases hk : k = k1
      · subst hk
        by_cases hp : p (k, f1)
        · rw [List.filter_cons_of_pos hp]
          simp [lookupFlow, hp]
        · rw [List.filter_cons_of_neg (by simpa using hp)]
          have hrn : lookupFlow rest k = none := lookupFlow_eq_none_of_not_mem rest k hni
          rw [lookupFlow_filter_none p rest k hrn]
          simp [lookupFlow, hp]
      · by_cases hp : p (k1, f1)
        · rw [List.filter_cons_of_pos hp]
          simp [lookupFlow, hk, ih hnd']
        · rw [List.filter_cons_of_neg (by simpa using hp)]
          simp [lookupFlow, hk, ih hnd']

theorem runEvents_append (cfg : Config) (st : SniffState) (l1 l2 : List Event) :
    runEvents cfg st (l1 ++ l2) = runEvents cfg (runEvents cfg st l1) l2 := by
  induction l1 generalizing st with
  | nil => rfl
  | cons e rest ih => cases e <;> simp [runEvents, ih]

theorem updatedFlow_bytecount (now pl : Nat) (flw0 : trackedFlow) :
    (updatedFlow now pl flw0).bytecount = flw0.bytecount + payloadish pl := by
  unfold updatedFlow payloadish
  by_cases h : MINIMUM_IP_PACKET_SIZE < pl <;> simp [h]

theorem getD_packets (tbl : FlowTable) (k : FiveTuple) :
    ((lookupFlow tbl k).getD ⟨0, 0, 0, false⟩).packets = packetsOf tbl k := by
  cases h : lookupFlow tbl k <;> simp [packetsOf, h]

theorem getD_bytecount (tbl : FlowTable) (k : FiveTuple) :
    ((lookupFlow tbl k).getD ⟨0, 0, 0, false⟩).bytecount = bytesOf tbl k := by
  cases h : lookupFlow tbl k <;> simp [bytesOf, h]

theorem getD_logged (tbl : FlowTable) (k : FiveTuple) :
    ((lookupFlow tbl k).getD ⟨0, 0, 0, false⟩).logged = loggedOf tbl k := by
  cases h : lookupFlow tbl k <;> simp [loggedOf, h]

theorem processFrame_seen (cfg : Config) (st : SniffState) (now : Nat) (fr : Frame) :
    (processFrame cfg st now fr).seen = updateFlow st.seen (frameKey fr) (flw2Of cfg st now fr) :=
  rfl

theorem processFrame_output (cfg : Config) (st : SniffState) (now : Nat) (fr : Frame) :
    (processFrame cfg st now fr).output =
      if acceptB cfg (flw1Of st now fr) then st.output ++ [fr] else st.output :=
  rfl

theorem processFrame_logs (cfg : Config) (st : SniffState) (now : Nat) (fr : Frame) :
    (processFrame cfg st now fr).logs =
      if logB (acceptB cfg (flw1Of st now fr)) (flw1Of st now fr)
      then st.logs ++ [frameKey fr] else st.logs :=
  rfl

theorem flw2Of_packets (cfg : Config) (st : SniffState) (now : Nat) (fr : Frame) :
    (flw2Of cfg st now fr).packets = packetsOf st.seen (frameKey fr) + 1 := by
  unfold flw2Of flw1Of
  split <;> simp [updatedFlow, getD_packets]

theorem flw2Of_bytecount (cfg : Config) (st : SniffState) (now : Nat) (fr : Frame) :
    (flw2Of cfg st now fr).bytecount = bytesOf st.seen (frameKey fr) + payloadish fr.len := by
  unfold flw2Of flw1Of
  split <;> simp [updatedFlow_bytecount, getD_bytecount]

theorem flw2Of_last (cfg : Config) (st : SniffState) (now : Nat) (fr : Frame) :
    (flw2Of cfg st now fr).last = now := by
  unfold flw2Of flw1Of
  split <;> simp [updatedFlow]

theorem processFrame_lookup_self (cfg : Config) (st : SniffState) (now : Nat) (fr : Frame) :
    lookupFlow (processFrame cfg st now fr).seen (frameKey fr) = some (flw2Of cfg st now fr) := by
  rw [processFrame_seen]
  exact lookupFlow_updateFlow_self _ _ _

theorem processFrame_lookup_ne (cfg : Config) (st : SniffState) (now : Nat) (fr : Frame)
    (k : FiveTuple) (h : k ≠ frameKey fr) :
    lookupFlow (processFrame cfg st now fr).seen k = lookupFlow st.seen k := by
  rw [processFrame_seen]
  exact lookupFlow_updateFlow_ne _ _ _ _ h

theorem acceptB_false_of_cutoff (cfg : Config) (st : SniffState) (now : Nat) (fr : Frame)
    (h : cutoffReached cfg st.seen (frameKey fr) = true) :
    acceptB cfg (flw1Of st now fr) = false := by
  unfold cutoffReached at h
  cases hlk : lookupFlow st.seen (frameKey fr) with
  | none => rw [hlk] at h; simp at h
  | some f =>
      rw [hlk] at h
      simp only [Bool.or_eq_true, decide_eq_true_eq] at h
      unfold acceptB flw1Of
      rcases h with h | h
      · have h1 : ¬ ((updatedFlow now fr.len
            ((lookupFlow st.seen (frameKey fr)).getD ⟨0, 0, 0, false⟩)).bytecount
              < cfg.flowByteCutoff) := by
          rw [updatedFlow_bytecount, hlk]
          simp only [Option.getD_some]
          omega
        simp [h1]
      · have h2 : ¬ ((updatedFlow now fr.len
            ((lookupFlow st.seen (frameKey fr)).getD ⟨0, 0, 0, false⟩)).packets
              < cfg.flowPacketCutoff) := by
          rw [hlk]
          simp only [updatedFlow, Option.getD_some]
          omega
        simp [h2]

theorem cutoffReached_processFrame (cfg : Config) (st : SniffState) (now : Nat) (fr : Frame)
    (k : FiveTuple) (h : cutoffReached cfg st.seen k = true) :
    cutoffReached cfg (processFrame cfg st now fr).seen k = true := by
  by_cases hk : k = frameKey fr
  · subst hk
    unfold cutoffReached at h ⊢
    cases hlk : lookupFlow st.seen (frameKey fr) with
    | none => rw [hlk] at h; simp at h
    | some f =>
        rw [hlk] at h
        rw [processFrame_lookup_self]
        have hp := flw2Of_packets cfg st now fr
        have hb := flw2Of_bytecount cfg st now fr
        simp only [packetsOf, bytesOf, hlk] at hp hb
        simp only [Bool.or_eq_true, decide_eq_true_eq] at h ⊢
        rcases h with h | h
        · left; rw [hb]; omega
        · right; rw [hp]; omega
  · unfold cutoffReached
    rw [processFrame_lookup_ne cfg st now fr k hk]
    exact h

theorem outK_append (k : FiveTuple) (l1 l2 : List Frame) :
    outK k (l1 ++ l2) = outK k l1 ++ outK k l2 := by
  simp [outK]

theorem outK_singleton_ne (k : FiveTuple) (fr : Frame) (h : frameKey fr ≠ k) :
    outK k [fr] = [] := by
  simp [outK, h]

theorem cutoff_trace (cfg : Config) :
    ∀ evs (st : SniffState) (k : FiveTuple), allPkt evs = true →
      cutoffReached cfg st.seen k = true →
      cutoffReached cfg (runEvents cfg st evs).seen k = true ∧
      outK k (runEvents cfg st evs).output = outK k st.output := by
  intro evs
  induction evs with
  | nil => intro st k _ h; exact ⟨h, rfl⟩
  | cons e rest ih =>
      intro st k hall h
      cases e with
      | pkt now fr =>
          have hall' : allPkt rest = true := hall
          have hcut := cutoffReached_processFrame cfg st now fr k h
          have hout : outK k (processFrame cfg st now fr).output = outK k st.output := by
            by_cases hk : frameKey fr = k
            · have hacc : acceptB cfg (flw1Of st now fr) = false :=
                acceptB_false_of_cutoff cfg st now fr (by rw [hk]; exact h)
              rw [processFrame_output, hacc]
              simp
            · rw [processFrame_output]
              by_cases hacc : acceptB cfg (flw1Of st now fr) <;>
                simp [hacc, outK_append, outK_singleton_ne _ _ hk]
          obtain ⟨h1, h2⟩ := ih (processFrame cfg st now fr) k hall' hcut
          refine ⟨h1, ?_⟩
          rw [show runEvents cfg st (Event.pkt now fr :: rest)
                = runEvents cfg (processFrame cfg st now fr) rest from rfl, h2, hout]
      | sweep now => simp [allPkt] at hall

theorem sweepStep_seen (cfg : Config) (st : SniffState) (now : Nat) :
    (sweepStep cfg st now).seen = st.seen.filter (fun kv => !expired cfg now kv) :=
  rfl

theorem sweepStep_output (cfg : Config) (st : SniffState) (now : Nat) :
    (sweepStep cfg st now).output = st.output :=
  rfl

theorem sweepStep_logs (cfg : Config) (st : SniffState) (now : Nat) :
    (sweepStep cfg st now).logs = st.logs :=
  rfl

theorem sweepStep_histogram (cfg : Config) (st : SniffState) (now : Nat) :
    (sweepStep cfg st now).histogram =
      st.histogram ++ (st.seen.filter (expired cfg now)).map (fun kv => kv.2.bytecount) :=
  rfl

theorem sweepStep_lookup (cfg : Config) (st : SniffState) (now : Nat) (k : FiveTuple)
    (f : trackedFlow) (hnd : flowKeysNodup st.seen) (h : lookupFlow st.seen k = some f) :
    lookupFlow (sweepStep cfg st now).seen k =
      (if cfg.flowTimeout < now - f.last then none else some f) := by
  rw [sweepStep_seen, lookupFlow_filter _ _ _ hnd, h]
  by_cases he : cfg.flowTimeout < now - f.last <;> simp [expired, he]

theorem sweepStep_lookup_none (cfg : Config) (st : SniffState) (now : Nat) (k : FiveTuple)
    (h : lookupFlow st.seen k = none) :
    lookupFlow (sweepStep cfg st now).seen k = none := by
  rw [sweepStep_seen]
  exact lookupFlow_filter_none _ _ _ h

theorem filter_keep_then_expired (cfg : Config) (now : Nat) (l : FlowTable) :
    (l.filter (fun kv => !expired cfg now kv)).filter (expired cfg now) = [] := by
  induction l with
  | nil => rfl
  | cons a l ih => by_cases h : expired cfg now a <;> simp [h, ih]

theorem filter_keep_idem (cfg : Config) (now : Nat) (l : FlowTable) :
    (l.filter (fun kv => !expired cfg now kv)).filter (fun kv => !expired cfg now kv)
      = l.filter (fun kv => !expired cfg now kv) := by
  induction l with
  | nil => rfl
  | cons a l ih => by_cases h : expired cfg now a <;> simp [h, ih]

theorem processFrame_eq (cfg : Config) (st : SniffState) (now : Nat) (fr : Frame) :
    processFrame cfg st now fr =
      { seen := updateFlow st.seen (frameKey fr) (flw2Of cfg st now fr)
        output := if acceptB cfg (flw1Of st now fr) then st.output ++ [fr] else st.output
        logs := if logB (acceptB cfg (flw1Of st now fr)) (flw1Of st now fr)
                then st.logs ++ [frameKey fr] else st.logs
        histogram := st.histogram
        totalPackets := st.totalPackets + 1
        totalBytes := st.totalBytes + fr.len
        outputPackets := if acceptB cfg (flw1Of st now fr) then st.outputPackets + 1
                         else st.outputPackets
        outputBytes := if acceptB cfg (flw1Of st now fr) then st.outputBytes + fr.len
                       else st.outputBytes
        totalFlows := if (lookupFlow st.seen (frameKey fr)).isNone then st.totalFlows + 1
                      else st.totalFlows
        removedFlows := st.removedFlows } :=
  rfl

theorem singleFlow_base (cfg : Config) (fr : Frame) (t : Nat)
    (hpp : payloadish fr.len < cfg.flowByteCutoff)
    (hLL : payloadish fr.len ≤ LARGE_FLOW_SIZE) :
    processFrame cfg initState t fr = singleFlowState cfg fr t 1 := by
  have hlk : lookupFlow initState.seen (frameKey fr) = none := rfl
  have hflw1 : flw1Of initState t fr = ⟨1, payloadish fr.len, t, false⟩ := by
    unfold flw1Of
    rw [hlk]
    unfold updatedFlow payloadish
    by_cases h : MINIMUM_IP_PACKET_SIZE < fr.len <;> simp [h]
  have hacc : acceptB cfg (flw1Of initState t fr) = decide (1 < cfg.flowPacketCutoff) := by
    rw [hflw1]
    unfold acceptB
    simp [hpp]
  have hnl : ¬ (LARGE_FLOW_SIZE < payloadish fr.len) := by omega
  have hlog : logB (acceptB cfg (flw1Of initState t fr)) (flw1Of initState t fr) = false := by
    rw [hflw1]
    unfold logB
    simp [hnl]
  have hlog2 : logB (decide (1 < cfg.flowPacketCutoff)) (flw1Of initState t fr) = false := by
    rw [← hacc]
    exact hlog
  have hflw2 : flw2Of cfg initState t fr = ⟨1, payloadish fr.len, t, false⟩ := by
    unfold flw2Of
    rw [hlog]
    simpa using hflw1
  rw [processFrame_eq, hacc, hflw2, hlog2]
  by_cases hPc : 1 < cfg.flowPacketCutoff
  · have hmin : min 1 (cfg.flowPacketCutoff - 1) = 1 := by omega
    simp [singleFlowState, initState, updateFlow, lookupFlow, hPc, hmin, List.replicate]
  · have hmin : min 1 (cfg.flowPacketCutoff - 1) = 0 := by omega
    simp [singleFlowState, initState, updateFlow, lookupFlow, hPc, hmin]

theorem singleFlow_step (cfg : Config) (fr : Frame) (t m : Nat)
    (hpp : (m + 1) * payloadish fr.len < cfg.flowByteCutoff)
    (hLL : (m + 1) * payloadish fr.len ≤ LARGE_FLOW_SIZE) :
    processFrame cfg (singleFlowState cfg fr t m) t fr = singleFlowState cfg fr t (m + 1) := by
  have hlk : lookupFlow (singleFlowState cfg fr t m).seen (frameKey fr)
      = some ⟨m, m * payloadish fr.len, t, false⟩ := by
    simp [singleFlowState, lookupFlow]
  have hflw1 : flw1Of (singleFlowState cfg fr t m) t fr
      = ⟨m + 1, (m + 1) * payloadish fr.len, t, false⟩ := by
    unfold flw1Of
    rw [hlk]
    unfold updatedFlow payloadish
    by_cases h : MINIMUM_IP_PACKET_SIZE < fr.len <;> simp [h, Nat.succ_mul, payloadish]
  have hacc : acceptB cfg (flw1Of (singleFlowState cfg fr t m) t fr)
      = decide (m + 1 < cfg.flowPacketCutoff) := by
    rw [hflw1]
    unfold acceptB
    simp [hpp]
  have hnl : ¬ (LARGE_FLOW_SIZE < (m + 1) * payloadish fr.len) := by omega
  have hlog : logB (acceptB cfg (flw1Of (singleFlowState cfg fr t m) t fr))
      (flw1Of (singleFlowState cfg fr t m) t fr) = false := by
    rw [hflw1]
    unfold logB
    simp [hnl]
  have hlog2 : logB (decide (m + 1 < cfg.flowPacketCutoff))
      (flw1Of (singleFlowState cfg fr t m) t fr) = false := by
    rw [← hacc]
    exact hlog
  have hflw2 : flw2Of cfg (singleFlowState cfg fr t m) t fr
      = ⟨m + 1, (m + 1) * payloadish fr.len, t, false⟩ := by
    unfold flw2Of
    rw [hlog]
    simpa using hflw1
  rw [processFrame_eq, hacc, hflw2, hlog2, hlk]
  by_cases hPc : m + 1 < cfg.flowPacketCutoff
  · have hmin1 : min m (cfg.flowPacketCutoff - 1) = m := by omega
    have hmin2 : min (m + 1) (cfg.flowPacketCutoff - 1) = m + 1 := by omega
    simp [singleFlowState, updateFlow, hPc, hmin1, hmin2, List.replicate_succ',
      Nat.succ_mul]
  · have hmin1 : min m (cfg.flowPacketCutoff - 1) = cfg.flowPacketCutoff - 1 := by omega
    have hmin2 : min (m + 1) (cfg.flowPacketCutoff - 1) = cfg.flowPacketCutoff - 1 := by
      omega
    simp [singleFlowState, updateFlow, hPc, hmin1, hmin2, Nat.succ_mul]

theorem singleFlow_run (cfg : Config) (fr : Frame) (t K : Nat)
    (hp : K * payloadish fr.len < cfg.flowByteCutoff)
    (hL : K * payloadish fr.len ≤ LARGE_FLOW_SIZE) :
    ∀ n, 1 ≤ n → n ≤ K →
      runEvents cfg initState (List.replicate n (Event.pkt t fr)) = singleFlowState cfg fr t n := by
  intro n
  induction n with
  | zero => intro h1 _; exact absurd h1 (by omega)
  | succ m ih =>
      intro _ hle
      have hmp : (m + 1) * payloadish fr.len ≤ K * payloadish fr.len :=
        Nat.mul_le_mul_right _ hle
      by_cases hm : m = 0
      · subst hm
        show processFrame cfg initState t fr = singleFlowState cfg fr t 1
        exact singleFlow_base cfg fr t (by omega) (by omega)
      · have h1m : 1 ≤ m := by omega
        have hmK : m ≤ K := by omega
        rw [List.replicate_succ', runEvents_append, ih h1m hmK]
        show processFrame cfg (singleFlowState cfg fr t m) t fr = singleFlowState cfg fr t (m + 1)
        exact singleFlow_step cfg fr t m (by omega) (by omega)

theorem flw1Of_packets (st : SniffState) (now : Nat) (fr : Frame) :
    (flw1Of st now fr).packets = packetsOf st.seen (frameKey fr) + 1 := by
  unfold flw1Of updatedFlow
  simp [getD_packets]

theorem flw1Of_bytecount (st : SniffState) (now : Nat) (fr : Frame) :
    (flw1Of st now fr).bytecount = bytesOf st.seen (frameKey fr) + payloadish fr.len := by
  unfold flw1Of
  rw [updatedFlow_bytecount, getD_bytecount]

theorem flw1Of_logged (st : SniffState) (now : Nat) (fr : Frame) :
    (flw1Of st now fr).logged = loggedOf st.seen (frameKey fr) := by
  unfold flw1Of updatedFlow
  simp [getD_logged]

theorem flw2Of_logged (cfg : Config) (st : SniffState) (now : Nat) (fr : Frame) :
    (flw2Of cfg st now fr).logged =
      (logB (acceptB cfg (flw1Of st now fr)) (flw1Of st now fr) || (flw1Of st now fr).logged) := by
  unfold flw2Of
  by_cases h : logB (acceptB cfg (flw1Of st now fr)) (flw1Of st now fr) <;> simp [h]

theorem logB_logged_false {acc : Bool} {f : trackedFlow} (h : logB acc f = true) :
    f.logged = false := by
  unfold logB at h
  simp only [Bool.and_eq_true, beq_iff_eq] at h
  exact h.1.2

theorem logB_large {acc : Bool} {f : trackedFlow} (h : logB acc f = true) :
    LARGE_FLOW_SIZE < f.bytecount := by
  unfold logB at h
  simp only [Bool.and_eq_true, decide_eq_true_eq] at h
  exact h.2

theorem acceptB_false_of_bytes (cfg : Config) (f : trackedFlow)
    (h : ¬ (f.bytecount < cfg.flowByteCutoff)) : acceptB cfg f = false := by
  unfold acceptB
  simp [h]

theorem bytesOf_processFrame (cfg : Config) (st : SniffState) (now : Nat) (fr : Frame)
    (k : FiveTuple) :
    bytesOf (processFrame cfg st now fr).seen k =
      bytesOf st.seen k + (if frameKey fr = k then payloadish fr.len else 0) := by
  by_cases hk : frameKey fr = k
  · have h1 : bytesOf (processFrame cfg st now fr).seen k = (flw2Of cfg st now fr).bytecount := by
      unfold bytesOf
      rw [← hk, processFrame_lookup_self]
    rw [h1, flw2Of_bytecount, hk, if_pos rfl]
  · have h1 : lookupFlow (processFrame cfg st now fr).seen k = lookupFlow st.seen k :=
      processFrame_lookup_ne cfg st now fr k (fun he => hk he.symm)
    unfold bytesOf
    rw [h1, if_neg hk]
    cases lookupFlow st.seen k <;> simp

theorem loggedOf_processFrame_ne (cfg : Config) (st : SniffState) (now : Nat) (fr : Frame)
    (k : FiveTuple) (hk : ¬ frameKey fr = k) :
    loggedOf (processFrame cfg st now fr).seen k = loggedOf st.seen k := by
  unfold loggedOf
  rw [processFrame_lookup_ne cfg st now fr k (fun he => hk he.symm)]

theorem loggedOf_processFrame_self (cfg : Config) (st : SniffState) (now : Nat) (fr : Frame) :
    loggedOf (processFrame cfg st now fr).seen (frameKey fr) =
      (logB (acceptB cfg (flw1Of st now fr)) (flw1Of st now fr)
        || loggedOf st.seen (frameKey fr)) := by
  unfold loggedOf
  rw [processFrame_lookup_self]
  rw [show (match some (flw2Of cfg st now fr) with
      | some f => f.logged
      | none => false) = (flw2Of cfg st now fr).logged from rfl]
  rw [flw2Of_logged, flw1Of_logged]
  rfl

theorem bytesOf_trace (cfg : Config) :
    ∀ evs (st : SniffState) (k : FiveTuple), allPkt evs = true →
      bytesOf (runEvents cfg st evs).seen k = bytesOf st.seen k + sumPayload k evs := by
  intro evs
  induction evs with
  | nil => intro st k _; simp [runEvents, sumPayload]
  | cons e rest ih =>
      intro st k hall
      cases e with
      | pkt now fr =>
          have hall' : allPkt rest = true := hall
          rw [show runEvents cfg st (Event.pkt now fr :: rest)
              = runEvents cfg (processFrame cfg st now fr) rest from rfl]
          rw [ih _ _ hall', bytesOf_processFrame]
          by_cases hk : frameKey fr = k
          · simp [sumPayload, hk]
            omega
          · simp [sumPayload, hk]
      | sweep now => simp [allPkt] at hall

theorem countKey_append (l : List FiveTuple) (j k : FiveTuple) :
    ((l ++ [j]).filter (fun x => decide (x = k))).length
      = (l.filter (fun x => decide (x = k))).length + (if j = k then 1 else 0) := by
  by_cases h : j = k <;> simp [List.filter_append, h]

theorem logsCount_processFrame (cfg : Config) (st : SniffState) (now : Nat) (fr : Frame)
    (k : FiveTuple) (h : logsCount st k = if loggedOf st.seen k then 1 else 0) :
    logsCount (processFrame cfg st now fr) k
      = if loggedOf (processFrame cfg st now fr).seen k then 1 else 0 := by
  by_cases hlg : logB (acceptB cfg (flw1Of st now fr)) (flw1Of st now fr)
  · have hlogs : (processFrame cfg st now fr).logs = st.logs ++ [frameKey fr] := by
      rw [processFrame_logs, if_pos hlg]
    by_cases hk : frameKey fr = k
    · have hpre : loggedOf st.seen k = false := by
        rw [← hk, ← flw1Of_logged st now fr]
        exact logB_logged_false hlg
      have hcnt : logsCount st k = 0 := by rw [h, hpre]; rfl
      have hpost : loggedOf (processFrame cfg st now fr).seen k = true := by
        rw [← hk, loggedOf_processFrame_self, hlg]
        rfl
      unfold logsCount
      rw [hlogs, countKey_append, hpost]
      unfold logsCount at hcnt
      rw [hcnt, if_pos hk]
      rfl
    · have hpost : loggedOf (processFrame cfg st now fr).seen k = loggedOf st.seen k :=
        loggedOf_processFrame_ne cfg st now fr k hk
      unfold logsCount
      rw [hlogs, countKey_append, hpost, if_neg hk]
      unfold logsCount at h
      rw [h]
      simp
  · have hlogs : (processFrame cfg st now fr).logs = st.logs := by
      rw [processFrame_logs, if_neg (by simpa using hlg)]
    by_cases hk : frameKey fr = k
    · have hpost : loggedOf (processFrame cfg st now fr).seen k = loggedOf st.seen k := by
        rw [← hk, loggedOf_processFrame_self]
        simp [hlg]
      unfold logsCount
      rw [hlogs, hpost]
      exact h
    · have hpost : loggedOf (processFrame cfg st now fr).seen k = loggedOf st.seen k :=
        loggedOf_processFrame_ne cfg st now fr k hk
      unfold logsCount
      rw [hlogs, hpost]
      exact h

theorem logged_iff_large_processFrame (cfg : Config) (st : SniffState) (now : Nat) (fr : Frame)
    (k : FiveTuple) (hB : cfg.flowByteCutoff ≤ LARGE_FLOW_SIZE + 1)
    (h : loggedOf st.seen k = decide (LARGE_FLOW_SIZE < bytesOf st.seen k)) :
    loggedOf (processFrame cfg st now fr).seen k
      = decide (LARGE_FLOW_SIZE < bytesOf (processFrame cfg st now fr).seen k) := by
  by_cases hk : frameKey fr = k
  · subst hk
    rw [loggedOf_processFrame_self, bytesOf_processFrame, if_pos rfl]
    by_cases hpre : LARGE_FLOW_SIZE < bytesOf st.seen (frameKey fr)
    · have h1 : loggedOf st.seen (frameKey fr) = true := by rw [h]; simp [hpre]
      have h2 : LARGE_FLOW_SIZE < bytesOf st.seen (frameKey fr) + payloadish fr.len := by omega
      simp [h1, h2]
    · have h1 : loggedOf st.seen (frameKey fr) = false := by rw [h]; simp [hpre]
      rw [h1, Bool.or_false]
      by_cases hcross : LARGE_FLOW_SIZE < bytesOf st.seen (frameKey fr) + payloadish fr.len
      · have hacc : acceptB cfg (flw1Of st now fr) = false := by
          apply acceptB_false_of_bytes
          rw [flw1Of_bytecount]
          omega
        have hlgd : (flw1Of st now fr).logged = false := by
          rw [flw1Of_logged, h1]
        have hbig : LARGE_FLOW_SIZE < (flw1Of st now fr).bytecount := by
          rw [flw1Of_bytecount]
          exact hcross
        unfold logB
        simp [hacc, hlgd, hbig, hcross]
      · have hsm : ¬ (LARGE_FLOW_SIZE < (flw1Of st now fr).bytecount) := by
          rw [flw1Of_bytecount]
          exact hcross
        unfold logB
        simp [hsm, hcross]
  · rw [loggedOf_processFrame_ne cfg st now fr k hk, bytesOf_processFrame, if_neg hk]
    simpa using h

theorem logsCount_run (cfg : Config) (k : FiveTuple) :
    ∀ evs, allPkt evs = true → ∀ st : SniffState,
      logsCount st k = (if loggedOf st.seen k then 1 else 0) →
      logsCount (runEvents cfg st evs) k
        = if loggedOf (runEvents cfg st evs).seen k then 1 else 0 := by
  intro evs
  induction evs with
  | nil => intro _ st h; exact h
  | cons e rest ih =>
      intro hall st h
      cases e with
      | pkt now fr =>
          exact ih hall (processFrame cfg st now fr) (logsCount_processFrame cfg st now fr k h)
      | sweep now => simp [allPkt] at hall

theorem logged_iff_large_run (cfg : Config) (k : FiveTuple)
    (hB : cfg.flowByteCutoff ≤ LARGE_FLOW_SIZE + 1) :
    ∀ evs, allPkt evs = true → ∀ st : SniffState,
      loggedOf st.seen k = decide (LARGE_FLOW_SIZE < bytesOf st.seen k) →
      loggedOf (runEvents cfg st evs).seen k
        = decide (LARGE_FLOW_SIZE < bytesOf (runEvents cfg st evs).seen k) := by
  intro evs
  induction evs with
  | nil => intro _ st h; exact h
  | cons e rest ih =>
      intro hall st h
      cases e with
      | pkt now fr =>
          exact ih hall (processFrame cfg st now fr)
            (logged_iff_large_processFrame cfg st now fr k hB h)
      | sweep now => simp [allPkt] at hall

theorem seen_min1_processFrame (cfg : Config) (st : SniffState) (now : Nat) (fr : Frame)
    (h : ∀ kv ∈ st.seen, 1 ≤ kv.2.packets) :
    ∀ kv ∈ (processFrame cfg st now fr).seen, 1 ≤ kv.2.packets := by
  intro kv hkv
  rw [processFrame_seen] at hkv
  rcases mem_updateFlow hkv with h1 | h1
  · rw [h1]
    simp [flw2Of_packets]
  · exact h kv h1

theorem seen_min1_sweepStep (cfg : Config) (st : SniffState) (now : Nat)
    (h : ∀ kv ∈ st.seen, 1 ≤ kv.2.packets) :
    ∀ kv ∈ (sweepStep cfg st now).seen, 1 ≤ kv.2.packets := by
  intro kv hkv
  rw [sweepStep_seen] at hkv
  exact h kv (List.mem_of_mem_filter hkv)

theorem seen_min1_run (cfg : Config) :
    ∀ evs (st : SniffState), (∀ kv ∈ st.seen, 1 ≤ kv.2.packets) →
      ∀ kv ∈ (runEvents cfg st evs).seen, 1 ≤ kv.2.packets := by
  intro evs
  induction evs with
  | nil => intro st h; exact h
  | cons e rest ih =>
      intro st h
      cases e with
      | pkt now fr => exact ih _ (seen_min1_processFrame cfg st now fr h)
      | sweep now => exact ih _ (seen_min1_sweepStep cfg st now h)

theorem processFrame_output_pc1 (cfg : Config) (st : SniffState) (now : Nat) (fr : Frame)
    (h : cfg.flowPacketCutoff ≤ 1) :
    (processFrame cfg st now fr).output = st.output := by
  rw [processFrame_output]
  have hacc : acceptB cfg (flw1Of st now fr) = false := by
    unfold acceptB
    have hp : ¬ ((flw1Of st now fr).packets < cfg.flowPacketCutoff) := by
      rw [flw1Of_packets]
      omega
    simp [hp]
  simp [hacc]

theorem run_output_pc1 (cfg : Config) (h : cfg.flowPacketCutoff ≤ 1) :
    ∀ evs (st : SniffState), (runEvents cfg st evs).output = st.output := by
  intro evs
  induction evs with
  | nil => intro st; rfl
  | cons e rest ih =>
      intro st
      cases e with
      | pkt now fr =>
          rw [show runEvents cfg st (Event.pkt now fr :: rest)
              = runEvents cfg (processFrame cfg st now fr) rest from rfl]
          rw [ih, processFrame_output_pc1 cfg st now fr h]
      | sweep now =>
          rw [show runEvents cfg st (Event.sweep now :: rest)
              = runEvents cfg (sweepStep cfg st now) rest from rfl]
          rw [ih, sweepStep_output]

/-!
Claim theorems. -/

/-- C1, counterexample: in scenario S1 (200 frames of one TCP flow, 100 bytes
each, `packetcutoff=100`, `bytecutoff=10_000_000`) the sampler accepts 99
frames, not `min(K, packet_cutoff) = 100`: the acceptance test compares the
post-update packet counter with strict `<`, so frame number 100 (whose
post-update count is 100) is already dropped.  The total-packet count of 200
does hold. -/
theorem c1_counterexample :
    (runEvents cfgS1 initState (List.replicate 200 (Event.pkt 0 frTcp100))).output.length = 99 ∧
    (runEvents cfgS1 initState (List.replicate 200 (Event.pkt 0 frTcp100))).output.length ≠ 100 ∧
    (runEvents cfgS1 initState (List.replicate 200 (Event.pkt 0 frTcp100))).totalPackets = 200 := by
  have h := singleFlow_run cfgS1 frTcp100 0 200 (by decide) (by decide) 200 (by decide) (by decide)
  rw [h]
  refine ⟨by decide, by decide, by decide⟩

/-- C1, amended: for a synthetic single-flow input of `K ≥ 1` equal-length
frames whose cumulative payload-ish bytes stay below the byte cutoff (and
below the 16 GiB diagnostic threshold), the frames accepted are exactly the
first `min(K, packet_cutoff - 1)` ones, and `K` packets are counted in total;
concretely for scenario S1 the first 99 of 200 frames are accepted and 200
packets are counted. -/
theorem c1_head_truncation (cfg : Config) (fr : Frame) (t K : Nat)
    (hK : 1 ≤ K)
    (hp : K * payloadish fr.len < cfg.flowByteCutoff)
    (hL : K * payloadish fr.len ≤ LARGE_FLOW_SIZE) :
    (runEvents cfg initState (List.replicate K (Event.pkt t fr))).output
      = List.replicate (min K (cfg.flowPacketCutoff - 1)) fr ∧
    (runEvents cfg initState (List.replicate K (Event.pkt t fr))).totalPackets = K := by
  rw [singleFlow_run cfg fr t K hp hL K hK (le_refl K)]
  exact ⟨rfl, rfl⟩

/-- C1, amended, witness: scenario S1 instantiated (the accepted frames are
the first `min 200 99 = 99` ones). -/
theorem c1_head_truncation_witness :
    (runEvents cfgS1 initState (List.replicate 200 (Event.pkt 0 frTcp100))).output
      = List.replicate (min 200 (cfgS1.flowPacketCutoff - 1)) frTcp100 ∧
    (runEvents cfgS1 initState (List.replicate 200 (Event.pkt 0 frTcp100))).totalPackets = 200 :=
  c1_head_truncation cfgS1 frTcp100 0 200 (by decide) (by decide) (by decide)

/-- C2, counterexample: in scenario S2 (10 frames of 2000 bytes each,
`bytecutoff=8192`, `packetcutoff=100`) the output holds 4 frames, not 5: the
comparison uses the post-update counters, so frame 5, which brings the
cumulative payload-ish count to 9710 ≥ 8192, fails `bytecount < cutoff` and is
itself dropped.  Likewise a single 10000-byte packet (payload-ish 9942 ≥ 8192)
is not enqueued at all. -/
theorem c2_counterexample :
    (runEvents cfgS2 initState (List.replicate 10 (Event.pkt 0 frTcp2000))).output.length = 4 ∧
    (runEvents cfgS2 initState (List.replicate 10 (Event.pkt 0 frTcp2000))).output.length ≠ 5 ∧
    (runEvents cfgS2 initState [Event.pkt 0 frTcp10000]).output = [] :=
  ⟨by decide, by decide, by decide⟩

/-- C2, amended: the acceptance comparison uses the post-update counters, so
the frame on which the flow first crosses the byte cutoff is itself dropped:
in scenario S2 frames 1-4 are accepted, frame 5 (cumulative 9710 ≥ 8192 after
including it) is dropped, and the output holds exactly 4 frames; a flow whose
single packet exceeds the byte cutoff is tracked (packets = 1) but its packet
is not recorded to the writer. -/
theorem c2_post_update_drop :
    (runEvents cfgS2 initState (List.replicate 10 (Event.pkt 0 frTcp2000))).output
      = List.replicate 4 frTcp2000 ∧
    bytesOf (runEvents cfgS2 initState (List.replicate 5 (Event.pkt 0 frTcp2000))).seen
      (frameKey frTcp2000) = 9710 ∧
    (runEvents cfgS2 initState (List.replicate 5 (Event.pkt 0 frTcp2000))).output.length = 4 ∧
    (runEvents cfgS2 initState [Event.pkt 0 frTcp10000]).output = [] ∧
    packetsOf (runEvents cfgS2 initState [Event.pkt 0 frTcp10000]).seen
      (frameKey frTcp10000) = 1 :=
  ⟨by decide, by decide, by decide, by decide, by decide⟩

/-- C3: once a flow's post-update counters satisfy `packets ≥ packet_cutoff`
or `bytes ≥ byte_cutoff`, (a) over any further frame-only trace the cutoff
condition persists and no frame of that five-tuple is ever enqueued to the
writer, (b) after every subsequent frame of the five-tuple the entry is still
present with `last` equal to that frame's timestamp, and (c) a sweep enqueues
nothing and either keeps the entry (cutoff still holding) or removes it by
expiry. -/
theorem c3_cutoff_permanent (cfg : Config) (st : SniffState) (k : FiveTuple)
    (hnd : flowKeysNodup st.seen) (h : cutoffReached cfg st.seen k = true) :
    (∀ evs, allPkt evs = true →
        cutoffReached cfg (runEvents cfg st evs).seen k = true ∧
        outK k (runEvents cfg st evs).output = outK k st.output) ∧
    (∀ pre now fr, allPkt pre = true → frameKey fr = k →
        ∃ f', lookupFlow (runEvents cfg st (pre ++ [Event.pkt now fr])).seen k = some f' ∧
          f'.last = now) ∧
    (∀ now, (sweepStep cfg st now).output = st.output ∧
        (cutoffReached cfg (sweepStep cfg st now).seen k = true ∨
         lookupFlow (sweepStep cfg st now).seen k = none)) := by
  refine ⟨fun evs hall => cutoff_trace cfg evs st k hall h, ?_, ?_⟩
  · intro pre now fr hall hk
    rw [runEvents_append]
    rw [show runEvents cfg (runEvents cfg st pre) [Event.pkt now fr]
        = processFrame cfg (runEvents cfg st pre) now fr from rfl]
    refine ⟨flw2Of cfg (runEvents cfg st pre) now fr, ?_,
      flw2Of_last cfg (runEvents cfg st pre) now fr⟩
    rw [← hk]
    exact processFrame_lookup_self cfg (runEvents cfg st pre) now fr
  · intro now
    refine ⟨sweepStep_output cfg st now, ?_⟩
    unfold cutoffReached at h
    cases hlk : lookupFlow st.seen k with
    | none => rw [hlk] at h; simp at h
    | some f =>
        rw [hlk] at h
        have hlook := sweepStep_lookup cfg st now k f hnd hlk
        by_cases he : cfg.flowTimeout < now - f.last
        · right
          rw [hlook, if_pos he]
        · left
          unfold cutoffReached
          rw [hlook, if_neg he]
          exact h

/-- C3, witness: a table holding one TCP flow at the packet cutoff (100
packets) stays cut off and emits nothing over one further frame. -/
theorem c3_cutoff_permanent_witness :
    cutoffReached cfgS1
      (runEvents cfgS1
        ⟨[(frameKey frTcp100, ⟨100, 4200, 0, false⟩)], [], [], [], 100, 10000, 99, 9900, 1, 0⟩
        [Event.pkt 1 frTcp100]).seen (frameKey frTcp100) = true ∧
    outK (frameKey frTcp100)
      (runEvents cfgS1
        ⟨[(frameKey frTcp100, ⟨100, 4200, 0, false⟩)], [], [], [], 100, 10000, 99, 9900, 1, 0⟩
        [Event.pkt 1 frTcp100]).output
      = outK (frameKey frTcp100)
        (⟨[(frameKey frTcp100, ⟨100, 4200, 0, false⟩)], [], [], [], 100, 10000, 99, 9900, 1, 0⟩
          : SniffState).output :=
  (c3_cutoff_permanent cfgS1
      ⟨[(frameKey frTcp100, ⟨100, 4200, 0, false⟩)], [], [], [], 100, 10000, 99, 9900, 1, 0⟩
      (frameKey frTcp100) (by unfold flowKeysNodup; decide) (by decide)).1
    [Event.pkt 1 frTcp100] (by decide)

/-- C4: the sweep removes exactly the entries with `now - last > flow_timeout`
(present entries are kept unchanged iff not expired; absent keys stay absent),
appends exactly the removed entries' byte counts to the size histogram, and an
immediately repeated sweep at the same instant is a no-op on both the table
and the histogram. -/
theorem c4_sweep_exact (cfg : Config) (st : SniffState) (now : Nat)
    (hnd : flowKeysNodup st.seen) :
    (∀ k f, lookupFlow st.seen k = some f →
        lookupFlow (sweepStep cfg st now).seen k =
          (if cfg.flowTimeout < now - f.last then none else some f)) ∧
    (∀ k, lookupFlow st.seen k = none → lookupFlow (sweepStep cfg st now).seen k = none) ∧
    ((sweepStep cfg st now).histogram =
        st.histogram ++ (st.seen.filter (expired cfg now)).map (fun kv => kv.2.bytecount)) ∧
    (sweepStep cfg (sweepStep cfg st now) now).seen = (sweepStep cfg st now).seen ∧
    (sweepStep cfg (sweepStep cfg st now) now).histogram = (sweepStep cfg st now).histogram := by
  refine ⟨fun k f hf => sweepStep_lookup cfg st now k f hnd hf,
    fun k hk => sweepStep_lookup_none cfg st now k hk,
    sweepStep_histogram cfg st now, ?_, ?_⟩
  · simp only [sweepStep_seen]
    exact filter_keep_idem cfg now st.seen
  · simp only [sweepStep_histogram, sweepStep_seen]
    rw [filter_keep_then_expired]
    simp

/-- C4, witness: a one-entry table whose flow is 100 time units stale is
emptied by the sweep at time 100 with timeout 5. -/
theorem c4_sweep_exact_witness :
    lookupFlow (sweepStep cfgS1
        ⟨[(frameKey frTcp100, ⟨3, 500, 0, false⟩)], [], [], [7], 3, 300, 3, 300, 1, 0⟩
        100).seen (frameKey frTcp100)
      = (if cfgS1.flowTimeout < 100 - (⟨3, 500, 0, false⟩ : trackedFlow).last then none
         else some ⟨3, 500, 0, false⟩) :=
  (c4_sweep_exact cfgS1
      ⟨[(frameKey frTcp100, ⟨3, 500, 0, false⟩)], [], [], [7], 3, 300, 3, 300, 1, 0⟩
      100 (by unfold flowKeysNodup; decide)).1 (frameKey frTcp100) ⟨3, 500, 0, false⟩ (by decide)

theorem payloadish_cast (len : Nat) : (payloadish len : Int) = max 0 ((len : Int) - 58) := by
  unfold payloadish MINIMUM_IP_PACKET_SIZE
  by_cases h : 58 < len
  · rw [if_pos h]
    omega
  · rw [if_neg h]
    omega

/-- C5: every processed frame increases its flow's byte counter by exactly
`max(0, frame_length - 58)` (so frames of 58 bytes or less add nothing), and
over any frame-only trace the counter equals its starting value plus the sum
of these per-packet amounts for the frames of that key. -/
theorem c5_payloadish_bytes (cfg : Config) :
    (∀ (st : SniffState) (now : Nat) (fr : Frame),
        ∃ f', lookupFlow (processFrame cfg st now fr).seen (frameKey fr) = some f' ∧
          (f'.bytecount : Int) = (bytesOf st.seen (frameKey fr) : Int)
            + max 0 ((fr.len : Int) - 58)) ∧
    (∀ (st : SniffState) (k : FiveTuple) evs, allPkt evs = true →
        bytesOf (runEvents cfg st evs).seen k = bytesOf st.seen k + sumPayload k evs) := by
  constructor
  · intro st now fr
    refine ⟨flw2Of cfg st now fr, processFrame_lookup_self cfg st now fr, ?_⟩
    rw [flw2Of_bytecount]
    have hc := payloadish_cast fr.len
    push_cast
    omega
  · intro st k evs hall
    exact bytesOf_trace cfg evs st k hall

/-- C5, witness: one 100-byte frame adds `100 - 58 = 42` payload-ish bytes. -/
theorem c5_payloadish_bytes_witness :
    bytesOf (runEvents cfgS1 initState [Event.pkt 0 frTcp100]).seen (frameKey frTcp100)
      = bytesOf initState.seen (frameKey frTcp100)
        + sumPayload (frameKey frTcp100) [Event.pkt 0 frTcp100] :=
  (c5_payloadish_bytes cfgS1).2 initState (frameKey frTcp100) [Event.pkt 0 frTcp100] (by decide)

/-- C6, counterexample: with a byte cutoff above the 16 GiB threshold
(`bytecutoff = 2^40`), a flow whose accumulated payload-ish count exceeds
16 GiB can still satisfy the acceptance test, in which case the diagnostic
branch is never reached: after one 2^35-byte frame the flow's count
(34359738310) exceeds `LARGE_FLOW_SIZE` yet no log line has been emitted,
contradicting the claimed "exactly one" for every such flow. -/
theorem c6_counterexample :
    LARGE_FLOW_SIZE < bytesOf (runEvents cfgHugeCutoff initState [Event.pkt 0 frTcpBig]).seen
      (frameKey frTcpBig) ∧
    (runEvents cfgHugeCutoff initState [Event.pkt 0 frTcpBig]).logs = [] :=
  ⟨by decide, by decide⟩

/-- C6, amended: over any frame-only trace from a fresh worker, at most one
large-flow diagnostic is emitted per flow; and provided the configured byte
cutoff is at most `LARGE_FLOW_SIZE + 1` (true of the default 8192), the count
is exactly one precisely when the flow's accumulated payload-ish bytes exceed
16 GiB (the diagnostic fires the first time the threshold is observed crossed,
and the one-shot flag suppresses any further line). -/
theorem c6_one_shot_log (cfg : Config) (k : FiveTuple) (evs : List Event)
    (hall : allPkt evs = true) :
    logsCount (runEvents cfg initState evs) k ≤ 1 ∧
    (cfg.flowByteCutoff ≤ LARGE_FLOW_SIZE + 1 →
      logsCount (runEvents cfg initState evs) k
        = if LARGE_FLOW_SIZE < bytesOf (runEvents cfg initState evs).seen k then 1 else 0) := by
  have h0 : logsCount initState k = (if loggedOf initState.seen k then 1 else 0) := rfl
  have h1 := logsCount_run cfg k evs hall initState h0
  constructor
  · rw [h1]
    split <;> omega
  · intro hB
    have h0b : loggedOf initState.seen k
        = decide (LARGE_FLOW_SIZE < bytesOf initState.seen k) := by
      have : bytesOf initState.seen k = 0 := rfl
      rw [this]
      rfl
    have h2 := logged_iff_large_run cfg k hB evs hall initState h0b
    rw [h1, h2]
    by_cases hbig : LARGE_FLOW_SIZE < bytesOf (runEvents cfg initState evs).seen k <;>
      simp [hbig]

/-- C6, amended, witness: with the default byte cutoff a single 2^35-byte
frame makes the flow cross 16 GiB and exactly one diagnostic is emitted. -/
theorem c6_one_shot_log_witness :
    logsCount (runEvents cfgS2 initState [Event.pkt 0 frTcpBig]) (frameKey frTcpBig) ≤ 1 ∧
    logsCount (runEvents cfgS2 initState [Event.pkt 0 frTcpBig]) (frameKey frTcpBig)
      = (if LARGE_FLOW_SIZE < bytesOf (runEvents cfgS2 initState [Event.pkt 0 frTcpBig]).seen
          (frameKey frTcpBig) then 1 else 0) :=
  ⟨(c6_one_shot_log cfgS2 (frameKey frTcpBig) [Event.pkt 0 frTcpBig] (by decide)).1,
   (c6_one_shot_log cfgS2 (frameKey frTcpBig) [Event.pkt 0 frTcpBig] (by decide)).2 (by decide)⟩

/-- C7: `renamePcap` propagates a directory-creation error; given directories,
a rename error with `IsNotExist` (the missing-source case) is swallowed and
the call succeeds without moving anything, while any other rename error is
returned; on a successful rename the call succeeds having moved
`tempName[.gz]` to `outputPath/YYYY/MM/DD/YYYY-MM-DDTHH-MM-SS.pcap[.gz]`, the
`.gz` suffix appearing on both names exactly when compression is enabled. -/
theorem c7_finalize (compressed : Bool) (t : GoTime) (tempName outputPath : String)
    (mkdirAll : String → Option GoError) (rename : String → String → Option GoError) :
    (∀ e, mkdirAll (filepathDir (filepathJoin outputPath
        (timeFormatPcap t ++ gzSuffix compressed))) = some e →
      renamePcap compressed t tempName outputPath mkdirAll rename = Except.error e) ∧
    (mkdirAll (filepathDir (filepathJoin outputPath
        (timeFormatPcap t ++ gzSuffix compressed))) = none →
      (∀ e, rename (tempName ++ gzSuffix compressed)
            (filepathJoin outputPath (timeFormatPcap t ++ gzSuffix compressed)) = some e →
          (e.isNotExist = true →
            renamePcap compressed t tempName outputPath mkdirAll rename =
              Except.ok (tempName ++ gzSuffix compressed,
                filepathJoin outputPath (timeFormatPcap t ++ gzSuffix compressed), false)) ∧
          (e.isNotExist = false →
            renamePcap compressed t tempName outputPath mkdirAll rename = Except.error e)) ∧
      (rename (tempName ++ gzSuffix compressed)
          (filepathJoin outputPath (timeFormatPcap t ++ gzSuffix compressed)) = none →
        renamePcap compressed t tempName outputPath mkdirAll rename =
          Except.ok (tempName ++ gzSuffix compressed,
            filepathJoin outputPath (timeFormatPcap t ++ gzSuffix compressed), true))) ∧
    (timeFormatPcap t = pad4 t.year ++ "/" ++ pad2 t.month ++ "/" ++ pad2 t.day ++ "/" ++
        pad4 t.year ++ "-" ++ pad2 t.month ++ "-" ++ pad2 t.day ++ "T" ++
        pad2 t.hour ++ "-" ++ pad2 t.minute ++ "-" ++ pad2 t.second ++ ".pcap") := by
  have hsrc : (if compressed then tempName ++ ".gz" else tempName)
      = tempName ++ gzSuffix compressed := by
    cases compressed <;> simp [gzSuffix]
  have hdst : (if compressed then timeFormatPcap t ++ ".gz" else timeFormatPcap t)
      = timeFormatPcap t ++ gzSuffix compressed := by
    cases compressed <;> simp [gzSuffix]
  refine ⟨?_, ?_, rfl⟩
  · intro e he
    simp only [renamePcap, hsrc, hdst, he]
  · intro hmk
    refine ⟨?_, ?_⟩
    · intro e hre
      refine ⟨?_, ?_⟩
      · intro hne
        simp only [renamePcap, hsrc, hdst, hmk, hre, hne, if_true]
      · intro hne
        simp only [renamePcap, hsrc, hdst, hmk, hre, hne, Bool.false_eq_true, if_false]
    · intro hre
      simp only [renamePcap, hsrc, hdst, hmk, hre]

/-- C7, witness: with both operating-system calls succeeding and compression
on, the finalizer moves the `.gz`-suffixed current file into the dated tree. -/
theorem c7_finalize_witness :
    renamePcap true tW tmpName outRoot (fun _ => none) (fun _ _ => none)
      = Except.ok (tmpName ++ gzSuffix true,
          filepathJoin outRoot (timeFormatPcap tW ++ gzSuffix true), true) :=
  ((c7_finalize true tW tmpName outRoot (fun _ => none) (fun _ _ => none)).2.1 rfl).2 rfl

/-- C8: when no IPv4 or IPv6 layer is decoded the five-tuple stays the zero
value (the transport layer is only reachable below a recognized IP layer), so
any two such frames share the single unclassified key, and processing such a
frame counts it under that key (its packet counter is incremented). -/
theorem c8_unclassified :
    (∀ e : EthFrame, e.ip = none → ethKey e = FiveTuple.zero) ∧
    (∀ e1 e2 : EthFrame, e1.ip = none → e2.ip = none → ethKey e1 = ethKey e2) ∧
    (∀ (cfg : Config) (st : SniffState) (now : Nat) (fr : Frame), fr.eth.ip = none →
        ∃ f', lookupFlow (processFrame cfg st now fr).seen FiveTuple.zero = some f' ∧
          f'.packets = packetsOf st.seen FiveTuple.zero + 1) := by
  have hzero : ∀ e : EthFrame, e.ip = none → ethKey e = FiveTuple.zero := by
    intro e he
    unfold ethKey decodeLayers
    rw [he]
    cases hv : e.vlan <;> simp [decodeFiveTuple, decodeLayerStep]
  refine ⟨hzero, fun e1 e2 h1 h2 => (hzero e1 h1).trans (hzero e2 h2).symm, ?_⟩
  intro cfg st now fr hip
  have hk : frameKey fr = FiveTuple.zero := hzero fr.eth hip
  refine ⟨flw2Of cfg st now fr, ?_, ?_⟩
  · rw [← hk]
    exact processFrame_lookup_self cfg st now fr
  · rw [flw2Of_packets, hk]

/-- C8, witness: a frame with an unrecognized EtherType lands on the zero
key and increments its packet counter. -/
theorem c8_unclassified_witness :
    ethKey ethNoIp = FiveTuple.zero ∧
    (∃ f', lookupFlow (processFrame cfgS1 initState 0 ⟨ethNoIp, 99⟩).seen FiveTuple.zero
        = some f' ∧
      f'.packets = packetsOf initState.seen FiveTuple.zero + 1) :=
  ⟨c8_unclassified.1 ethNoIp rfl, c8_unclassified.2.2 cfgS1 initState 0 ⟨ethNoIp, 99⟩ rfl⟩

/-- C9: every entry of a table reachable from the initial state has
`packets ≥ 1`; the property is preserved by every frame-processing step and
every sweep (over arbitrary tables); and the packet counter of an existing
entry strictly increases when a frame of its key is processed. -/
theorem c9_packets_positive :
    (∀ (cfg : Config) evs kv, kv ∈ (runEvents cfg initState evs).seen → 1 ≤ kv.2.packets) ∧
    (∀ (cfg : Config) (st : SniffState) (now : Nat) (fr : Frame),
        (∀ kv ∈ st.seen, 1 ≤ kv.2.packets) →
        ∀ kv ∈ (processFrame cfg st now fr).seen, 1 ≤ kv.2.packets) ∧
    (∀ (cfg : Config) (st : SniffState) (now : Nat),
        (∀ kv ∈ st.seen, 1 ≤ kv.2.packets) →
        ∀ kv ∈ (sweepStep cfg st now).seen, 1 ≤ kv.2.packets) ∧
    (∀ (cfg : Config) (st : SniffState) (now : Nat) (fr : Frame) (f f' : trackedFlow),
        lookupFlow st.seen (frameKey fr) = some f →
        lookupFlow (processFrame cfg st now fr).seen (frameKey fr) = some f' →
        f.packets < f'.packets) := by
  refine ⟨?_, fun cfg st now fr h => seen_min1_processFrame cfg st now fr h,
    fun cfg st now h => seen_min1_sweepStep cfg st now h, ?_⟩
  · intro cfg evs kv hkv
    refine seen_min1_run cfg evs initState ?_ kv hkv
    intro kv hkv0
    simp [initState] at hkv0
  · intro cfg st now fr f f' hf hf'
    rw [processFrame_lookup_self] at hf'
    have h2 : flw2Of cfg st now fr = f' := Option.some.inj hf'
    rw [← h2, flw2Of_packets]
    unfold packetsOf
    rw [hf]
    simp

/-- C9, witness: after one frame from the empty table, the single entry has
`packets = 1 ≥ 1`. -/
theorem c9_packets_positive_witness :
    1 ≤ ((frameKey frTcp100, (⟨1, 42, 0, false⟩ : trackedFlow)) : FiveTuple × trackedFlow).2.packets :=
  c9_packets_positive.1 cfgS1 [Event.pkt 0 frTcp100]
    (frameKey frTcp100, ⟨1, 42, 0, false⟩) (by decide)

/-- C10: with a packet cutoff of 1 (or 0) the sampler enqueues nothing at all:
the post-update packet count of any frame is at least 1, so the strict
comparison `packets < packet_cutoff` fails already on the first frame of every
flow, and the writer output never grows. -/
theorem c10_cutoff_one_drops_all (cfg : Config) (h : cfg.flowPacketCutoff ≤ 1) :
    ∀ (st : SniffState) (evs : List Event), (runEvents cfg st evs).output = st.output :=
  fun st evs => run_output_pc1 cfg h evs st

/-- C10, witness: with `packetcutoff=1` even the very first frame is dropped. -/
theorem c10_cutoff_one_drops_all_witness :
    (runEvents cfgPc1 initState [Event.pkt 0 frTcp100]).output = initState.output :=
  c10_cutoff_one_drops_all cfgPc1 (by decide) initState [Event.pkt 0 frTcp100]

end Gotm
